import Mathlib

/-! OpenGLPlayground: the `Camera` class of `Camera.h`

A shallow embedding of `src/src/OpenGLPlayground/Camera.h`.

The C++ `float` fields are modelled by the elements of an ordered field `α`:
arithmetic is exact, there is no rounding, no infinity and no NaN.  The
methods that only add, multiply and compare (`ProcessKeyboard`,
`ProcessMovement`, `ProcessMouseScroll`, the constructors) are written for any
such `α` and can be evaluated at `α = ℚ`.  The methods that need a square root
or a trigonometric function (`GetViewMAtrix`, `updateCameraVectors`) are
written for `α = ℝ`.

`ProcessMovement` asks of its scalars only the operations its body uses, so
that it also runs on `F32`, a model of `float` that keeps the infinities and
NaN: there the pitch clamp meets values no ordered field has.

A `void` method becomes a function from the camera before the call to the
camera after it; a method that returns a value returns the value together with
the camera after the call.
-/

namespace OpenGLPlayground

/-! ## The GLM types and functions used by `Camera.h` -/

/-- Three-component vector, `glm::vec3`. -/
@[ext]
structure Vec3 (α : Type) where
  x : α
  y : α
  z : α
deriving DecidableEq, Repr

/-- Four-component vector, `glm::vec4`. -/
@[ext]
structure Vec4 (α : Type) where
  x : α
  y : α
  z : α
  w : α
deriving DecidableEq, Repr

/-- Column-major 3x3 matrix, `glm::mat3`: `c0`, `c1`, `c2` are its columns. -/
@[ext]
structure Mat3 (α : Type) where
  c0 : Vec3 α
  c1 : Vec3 α
  c2 : Vec3 α
deriving DecidableEq, Repr

/-- Column-major 4x4 matrix, `glm::mat4`: `c0` .. `c3` are its columns. -/
@[ext]
structure Mat4 (α : Type) where
  c0 : Vec4 α
  c1 : Vec4 α
  c2 : Vec4 α
  c3 : Vec4 α
deriving DecidableEq, Repr

/-- Component-wise sum, `glm::vec3 operator+`. -/
def Vec3.add {α : Type} [LinearOrderedField α] (a b : Vec3 α) : Vec3 α :=
  ⟨a.x + b.x, a.y + b.y, a.z + b.z⟩

/-- Component-wise difference, `glm::vec3 operator-`. -/
def Vec3.sub {α : Type} [LinearOrderedField α] (a b : Vec3 α) : Vec3 α :=
  ⟨a.x - b.x, a.y - b.y, a.z - b.z⟩

/-- Vector times scalar, `glm::vec3 operator*(vec3, float)`. -/
def Vec3.scale {α : Type} [LinearOrderedField α] (v : Vec3 α) (s : α) : Vec3 α :=
  ⟨v.x * s, v.y * s, v.z * s⟩

/-- Dot product, `glm::dot`. -/
def dot {α : Type} [LinearOrderedField α] (a b : Vec3 α) : α :=
  a.x * b.x + a.y * b.y + a.z * b.z

/-- Cross product, `glm::cross`. -/
def cross {α : Type} [LinearOrderedField α] (a b : Vec3 α) : Vec3 α :=
  ⟨a.y * b.z - b.y * a.z, a.z * b.x - b.z * a.x, a.x * b.y - b.x * a.y⟩

/-- Conversion `glm::mat3(glm::mat4)`: the upper-left 3x3 block; the fourth
column and the fourth row are dropped. -/
def Mat4.toMat3 {α : Type} (m : Mat4 α) : Mat3 α :=
  ⟨⟨m.c0.x, m.c0.y, m.c0.z⟩, ⟨m.c1.x, m.c1.y, m.c1.z⟩, ⟨m.c2.x, m.c2.y, m.c2.z⟩⟩

/-! ## `Camera.h` -/

/-- The enum `Camera_Movement`. -/
inductive Camera_Movement where
  | FORWARD
  | BACKWARD
  | LEFT
  | RIGHT
deriving DecidableEq, Repr

/-- Default yaw, `const float YAW = -90.0f`. -/
def YAW {α : Type} [LinearOrderedField α] : α := -90

/-- Default pitch, `const float PITCH = 0.0f`. -/
def PITCH {α : Type} [LinearOrderedField α] : α := 0

/-- Default speed, `const float MOVEMENT_SPEED = 2.5f`. -/
def MOVEMENT_SPEED {α : Type} [LinearOrderedField α] : α := 2.5

/-- Default sensitivity, `const float MOUSE_SENSITIVITY = 0.1f`. -/
def MOUSE_SENSITIVITY {α : Type} [LinearOrderedField α] : α := 0.1

/-- Default and largest field of view, `const float FOV_LIMIT = 90.0f`. -/
def FOV_LIMIT {α : Type} [LinearOrderedField α] : α := 90

/-- The data members of `class Camera`, in declaration order. -/
@[ext]
structure Camera (α : Type) where
  Position : Vec3 α
  Front : Vec3 α
  Up : Vec3 α
  Right : Vec3 α
  WorldUp : Vec3 α
  Yaw : α
  Pitch : α
  MovementSpeed : α
  MouseSensitivity : α
  FOV : α
deriving DecidableEq, Repr

/-- The constructor `Camera(glm::vec3 position, glm::vec3 up, float yaw, float pitch)`.
The initialiser list sets `Front`, `MovementSpeed`, `MouseSensitivity` and
`FOV`; the body assigns `Position`, `WorldUp`, `Yaw` and `Pitch`.  `Up` and
`Right` are written by neither: `up0` and `right0` stand for whatever these
two members hold when the constructor returns. -/
def Camera.ctor {α : Type} [LinearOrderedField α] (up0 right0 : Vec3 α)
    (position up : Vec3 α) (yaw pitch : α) : Camera α :=
  { Position := position
    Front := ⟨0, 0, -1⟩
    Up := up0
    Right := right0
    WorldUp := up
    Yaw := yaw
    Pitch := pitch
    MovementSpeed := MOVEMENT_SPEED
    MouseSensitivity := MOUSE_SENSITIVITY
    FOV := FOV_LIMIT }

/-- The constructor `Camera(float posX, float posY, float posZ, float upX,
float upY, float upZ, float yaw, float pitch)`; `up0` and `right0` as in
`Camera.ctor`. -/
def Camera.ctorScalars {α : Type} [LinearOrderedField α] (up0 right0 : Vec3 α)
    (posX posY posZ upX upY upZ yaw pitch : α) : Camera α :=
  { Position := ⟨posX, posY, posZ⟩
    Front := ⟨0, 0, -1⟩
    Up := up0
    Right := right0
    WorldUp := ⟨upX, upY, upZ⟩
    Yaw := yaw
    Pitch := pitch
    MovementSpeed := MOVEMENT_SPEED
    MouseSensitivity := MOUSE_SENSITIVITY
    FOV := FOV_LIMIT }

/-- The constructor `Camera(glm::vec3 position, glm::vec3 up, float yaw, float pitch)`
called with no argument: each parameter takes its default value,
`position = glm::vec3(0.0f, 0.0f, 0.0f)`, `up = glm::vec3(0.0f, 1.0f, 0.0f)`,
`yaw = YAW`, `pitch = PITCH`. -/
def Camera.ctorDefault {α : Type} [LinearOrderedField α] (up0 right0 : Vec3 α) : Camera α :=
  Camera.ctor up0 right0 ⟨0, 0, 0⟩ ⟨0, 1, 0⟩ YAW PITCH

/-- The method `void ProcessKeyboard(Camera_Movement direction, float deltaTime)`:
four independent `if` statements, run in the order of the source. -/
def Camera.ProcessKeyboard {α : Type} [LinearOrderedField α] (c : Camera α)
    (direction : Camera_Movement) (deltaTime : α) : Camera α :=
  let velocity := c.MovementSpeed * deltaTime
  let c1 := if direction = Camera_Movement.FORWARD then
    { c with Position := c.Position.add (c.Front.scale velocity) } else c
  let c2 := if direction = Camera_Movement.BACKWARD then
    { c1 with Position := c1.Position.sub (c1.Front.scale velocity) } else c1
  let c3 := if direction = Camera_Movement.LEFT then
    { c2 with Position := c2.Position.sub (c2.Right.scale velocity) } else c2
  if direction = Camera_Movement.RIGHT then
    { c3 with Position := c3.Position.add (c3.Right.scale velocity) } else c3

/-- The method `void ProcessMovement(float xoffset, float yoffset,
GLboolean constrainPitch)`.  It ends after the pitch clamp; it does not call
`updateCameraVectors`.  The scalar type needs `+`, `*`, unary `-`, `<` and the
literal `89`, which every ordered field and `F32` have. -/
def Camera.ProcessMovement {α : Type} [Add α] [Mul α] [Neg α] [LT α] [OfNat α 89]
    [∀ a b : α, Decidable (a < b)] (c : Camera α)
    (xoffset yoffset : α) (constrainPitch : Bool) : Camera α :=
  let xoffset := xoffset * c.MouseSensitivity
  let yoffset := yoffset * c.MouseSensitivity
  let c1 := { c with Yaw := c.Yaw + xoffset }
  let c2 := { c1 with Pitch := c1.Pitch + yoffset }
  if constrainPitch then
    let c3 := if c2.Pitch > 89 then { c2 with Pitch := 89 } else c2
    if c3.Pitch < -89 then { c3 with Pitch := -89 } else c3
  else c2

/-- The method `void ProcessMouseScroll(float yoffset)`. -/
def Camera.ProcessMouseScroll {α : Type} [LinearOrderedField α] (c : Camera α)
    (yoffset : α) : Camera α :=
  let c1 := { c with FOV := c.FOV - yoffset }
  let c2 := if c1.FOV < 1 then { c1 with FOV := 1 } else c1
  if c2.FOV > 90 then { c2 with FOV := 90 } else c2

/-- One call of a public mutating method of `Camera`, with its arguments. -/
inductive Call (α : Type) where
  | keyboard (direction : Camera_Movement) (deltaTime : α)
  | movement (xoffset yoffset : α) (constrainPitch : Bool)
  | scroll (yoffset : α)
deriving DecidableEq, Repr

/-- Perform one call on a camera. -/
def Camera.call {α : Type} [LinearOrderedField α] (c : Camera α) : Call α → Camera α
  | Call.keyboard direction deltaTime => c.ProcessKeyboard direction deltaTime
  | Call.movement xoffset yoffset constrainPitch => c.ProcessMovement xoffset yoffset constrainPitch
  | Call.scroll yoffset => c.ProcessMouseScroll yoffset

/-- Perform a sequence of calls, first to last. -/
def Camera.calls {α : Type} [LinearOrderedField α] (c : Camera α) (l : List (Call α)) : Camera α :=
  l.foldl Camera.call c

/-- A sequence of `ProcessMovement(xoffset, yoffset, true)` calls, one for
each pair of offsets, first to last. -/
def Camera.movements {α : Type} [Add α] [Mul α] [Neg α] [LT α] [OfNat α 89]
    [∀ a b : α, Decidable (a < b)] (c : Camera α) (l : List (α × α)) : Camera α :=
  l.foldl (fun s o => s.ProcessMovement o.1 o.2 true) c

/-- A sequence of `ProcessMouseScroll(yoffset)` calls, first to last. -/
def Camera.scrolls {α : Type} [LinearOrderedField α] (c : Camera α) (l : List α) : Camera α :=
  l.foldl Camera.ProcessMouseScroll c

/-! ## `float` with its infinities and NaN

`ProcessMovement` is written for any scalar type with the operations it
uses.  `F32` is the instance that keeps what an ordered field cannot hold: the
two infinities and NaN of IEEE 754 binary32, with overflow to infinity and
comparisons that are false on NaN.  A finite value carries its exact rational
value: rounding to 24 significant bits is not modelled. -/

/-- A binary32 value by kind: finite, plus infinity, minus infinity, NaN. -/
inductive F32 where
  | fin (q : ℚ)
  | pinf
  | ninf
  | nan
deriving DecidableEq, Repr

/-- The magnitude from which a round-to-nearest binary32 result is infinite,
`2^128 - 2^103`, half a unit in the last place above `FLT_MAX`. -/
def F32.overflow : ℚ := 2 ^ 128 - 2 ^ 103

/-- The binary32 result of an operation whose exact result is the finite
number `q`: infinite from the overflow magnitude on, `q` itself below it. -/
def F32.ofRat (q : ℚ) : F32 :=
  if F32.overflow ≤ q then F32.pinf
  else if q ≤ -F32.overflow then F32.ninf
  else F32.fin q

/-- An infinity times the finite number `q`: NaN for zero, otherwise the
infinity `same` when `q` is positive and `opposite` when it is negative. -/
def F32.infTimes (same opposite : F32) (q : ℚ) : F32 :=
  if q = 0 then F32.nan else if 0 < q then same else opposite

/-- Binary32 addition `a + b`. -/
def F32.add : F32 → F32 → F32
  | F32.fin a, F32.fin b => F32.ofRat (a + b)
  | F32.fin _, F32.pinf => F32.pinf
  | F32.fin _, F32.ninf => F32.ninf
  | F32.fin _, F32.nan => F32.nan
  | F32.pinf, F32.fin _ => F32.pinf
  | F32.pinf, F32.pinf => F32.pinf
  | F32.pinf, F32.ninf => F32.nan
  | F32.pinf, F32.nan => F32.nan
  | F32.ninf, F32.fin _ => F32.ninf
  | F32.ninf, F32.pinf => F32.nan
  | F32.ninf, F32.ninf => F32.ninf
  | F32.ninf, F32.nan => F32.nan
  | F32.nan, _ => F32.nan

/-- Binary32 multiplication `a * b`. -/
def F32.mul : F32 → F32 → F32
  | F32.fin a, F32.fin b => F32.ofRat (a * b)
  | F32.fin a, F32.pinf => F32.infTimes F32.pinf F32.ninf a
  | F32.fin a, F32.ninf => F32.infTimes F32.ninf F32.pinf a
  | F32.fin _, F32.nan => F32.nan
  | F32.pinf, F32.fin b => F32.infTimes F32.pinf F32.ninf b
  | F32.pinf, F32.pinf => F32.pinf
  | F32.pinf, F32.ninf => F32.ninf
  | F32.pinf, F32.nan => F32.nan
  | F32.ninf, F32.fin b => F32.infTimes F32.ninf F32.pinf b
  | F32.ninf, F32.pinf => F32.ninf
  | F32.ninf, F32.ninf => F32.pinf
  | F32.ninf, F32.nan => F32.nan
  | F32.nan, _ => F32.nan

/-- Binary32 negation `-a`. -/
def F32.neg : F32 → F32
  | F32.fin a => F32.fin (-a)
  | F32.pinf => F32.ninf
  | F32.ninf => F32.pinf
  | F32.nan => F32.nan

/-- Binary32 comparison `a < b`: false as soon as one side is NaN. -/
def F32.blt : F32 → F32 → Bool
  | F32.fin a, F32.fin b => decide (a < b)
  | F32.fin _, F32.pinf => true
  | F32.fin _, F32.ninf => false
  | F32.fin _, F32.nan => false
  | F32.pinf, _ => false
  | F32.ninf, F32.fin _ => true
  | F32.ninf, F32.pinf => true
  | F32.ninf, F32.ninf => false
  | F32.ninf, F32.nan => false
  | F32.nan, _ => false

/-- Binary32 comparison `a <= b`: false as soon as one side is NaN. -/
def F32.ble : F32 → F32 → Bool
  | F32.fin a, F32.fin b => decide (a ≤ b)
  | F32.fin _, F32.pinf => true
  | F32.fin _, F32.ninf => false
  | F32.fin _, F32.nan => false
  | F32.pinf, F32.pinf => true
  | F32.pinf, _ => false
  | F32.ninf, F32.nan => false
  | F32.ninf, _ => true
  | F32.nan, _ => false

/-- `a + b` on `F32` is `F32.add`. -/
instance F32.instAdd : Add F32 := ⟨F32.add⟩

/-- `a * b` on `F32` is `F32.mul`. -/
instance F32.instMul : Mul F32 := ⟨F32.mul⟩

/-- `-a` on `F32` is `F32.neg`. -/
instance F32.instNeg : Neg F32 := ⟨F32.neg⟩

/-- `a < b` on `F32` is `F32.blt`. -/
instance F32.instLT : LT F32 := ⟨fun a b => F32.blt a b = true⟩

/-- `a <= b` on `F32` is `F32.ble`. -/
instance F32.instLE : LE F32 := ⟨fun a b => F32.ble a b = true⟩

/-- `a < b` on `F32` is decidable. -/
instance F32.instDecidableLT (a b : F32) : Decidable (a < b) :=
  inferInstanceAs (Decidable (F32.blt a b = true))

/-- `a <= b` on `F32` is decidable. -/
instance F32.instDecidableLE (a b : F32) : Decidable (a ≤ b) :=
  inferInstanceAs (Decidable (F32.ble a b = true))

/-- A numeral on `F32` is the finite value of that number. -/
instance F32.instOfNat (n : ℕ) : OfNat F32 n := ⟨F32.fin n⟩

/-! ## GLM functions over the reals -/

/-- Degrees to radians, `glm::radians`: the argument times pi/180. -/
noncomputable def radians (degrees : ℝ) : ℝ :=
  degrees * (Real.pi / 180)

/-- Reciprocal square root, `glm::inversesqrt`. -/
noncomputable def inversesqrt (x : ℝ) : ℝ :=
  1 / Real.sqrt x

/-- Euclidean length, `glm::length`: `sqrt(dot(v, v))`. -/
noncomputable def length (v : Vec3 ℝ) : ℝ :=
  Real.sqrt (dot v v)

/-- Normalisation, `glm::normalize`: `v * inversesqrt(dot(v, v))`.  For the
zero vector the C++ result is `0 * inf`, a vector of NaN; here division by zero
gives `0` and the result is the zero vector.  In both readings the result is
not a vector of length 1. -/
noncomputable def normalize (v : Vec3 ℝ) : Vec3 ℝ :=
  v.scale (inversesqrt (dot v v))

/-- Right-handed look-at matrix, `glm::lookAt(eye, center, up)` as GLM builds
it by default (`lookAtRH`): rotation rows `s`, `u`, `-f` and the translation in
the fourth column. -/
noncomputable def lookAt (eye center up : Vec3 ℝ) : Mat4 ℝ :=
  let f := normalize (center.sub eye)
  let s := normalize (cross f up)
  let u := cross s f
  ⟨⟨s.x, u.x, -f.x, 0⟩, ⟨s.y, u.y, -f.y, 0⟩, ⟨s.z, u.z, -f.z, 0⟩,
    ⟨-dot s eye, -dot u eye, dot f eye, 1⟩⟩

/-! ## The methods of `Camera` that use them -/

/-- The method `glm::mat3 GetViewMAtrix()`.  The body has one statement,
`return glm::lookAt(Position, Position + Front, Up);` and the declared return
type is `glm::mat3`, so the `glm::mat4` that `lookAt` builds is converted to
`glm::mat3` on return.  No member is assigned; the camera is handed back as it
came. -/
noncomputable def Camera.GetViewMAtrix (c : Camera ℝ) : Mat3 ℝ × Camera ℝ :=
  ((lookAt c.Position (c.Position.add c.Front) c.Up).toMat3, c)

/-- The private method `void updateCameraVectors()`. -/
noncomputable def Camera.updateCameraVectors (c : Camera ℝ) : Camera ℝ :=
  let front : Vec3 ℝ :=
    ⟨Real.cos (radians c.Yaw) * Real.cos (radians c.Pitch),
     Real.sin (radians c.Pitch),
     Real.sin (radians c.Yaw) * Real.cos (radians c.Pitch)⟩
  let c1 := { c with Front := normalize front }
  let c2 := { c1 with Right := normalize (cross c1.Front c1.WorldUp) }
  { c2 with Up := normalize (cross c2.Right c2.Front) }

/-! ## The recompute contract of the specification -/

/-- The three vectors the recompute contract produces. -/
structure Basis where
  front : Vec3 ℝ
  right : Vec3 ℝ
  up : Vec3 ℝ

/-- The recompute contract, line by line as the specification gives it:
`front.x = cos(radians(yaw)) * cos(radians(pitch))`,
`front.y = sin(radians(pitch))`,
`front.z = sin(radians(yaw)) * cos(radians(pitch))`,
`front = normalize(front)`, `right = normalize(cross(front, world_up))`,
`up = normalize(cross(right, front))`. -/
noncomputable def recomputeContract (yaw pitch : ℝ) (world_up : Vec3 ℝ) : Basis :=
  let front : Vec3 ℝ :=
    ⟨Real.cos (radians yaw) * Real.cos (radians pitch),
     Real.sin (radians pitch),
     Real.sin (radians yaw) * Real.cos (radians pitch)⟩
  let front := normalize front
  let right := normalize (cross front world_up)
  let up := normalize (cross right front)
  ⟨front, right, up⟩

/-! ## Properties -/

/-- One constrained `ProcessMovement` call leaves the pitch in `[-89, 89]`. -/
theorem pitch_range_of_constrained_step {α : Type} [LinearOrderedField α] (c : Camera α)
    (xoffset yoffset : α) :
    -89 ≤ (c.ProcessMovement xoffset yoffset true).Pitch ∧
      (c.ProcessMovement xoffset yoffset true).Pitch ≤ 89 := by
  unfold Camera.ProcessMovement
  simp only [if_true]
  split_ifs with h1 h2 h3 <;> simp only at * <;> constructor <;> linarith

/-- One `ProcessMouseScroll` call leaves the field of view in `[1, 90]`. -/
theorem fov_range_of_scroll {α : Type} [LinearOrderedField α] (c : Camera α) (yoffset : α) :
    1 ≤ (c.ProcessMouseScroll yoffset).FOV ∧ (c.ProcessMouseScroll yoffset).FOV ≤ 90 := by
  unfold Camera.ProcessMouseScroll
  by_cases h1 : c.FOV - yoffset < 1
  · have h90 : ¬ ((1 : α) > 90) := by norm_num
    simp only [h1, h90, if_true, if_false]
    constructor <;> norm_num
  · by_cases h2 : c.FOV - yoffset > 90
    · simp only [h1, h2, if_true, if_false]
      constructor <;> norm_num
    · simp only [h1, h2, if_false]
      exact ⟨not_lt.mp h1, not_lt.mp h2⟩

/-- `ProcessKeyboard` does not write `FOV`. -/
theorem fov_of_processKeyboard {α : Type} [LinearOrderedField α] (c : Camera α)
    (direction : Camera_Movement) (deltaTime : α) :
    (c.ProcessKeyboard direction deltaTime).FOV = c.FOV := by
  cases direction <;> simp [Camera.ProcessKeyboard]

/-- `ProcessMovement` does not write `FOV`. -/
theorem fov_of_processMovement {α : Type} [LinearOrderedField α] (c : Camera α)
    (xoffset yoffset : α) (constrainPitch : Bool) :
    (c.ProcessMovement xoffset yoffset constrainPitch).FOV = c.FOV := by
  cases constrainPitch <;> simp [Camera.ProcessMovement, apply_ite Camera.FOV]

/-- A call of any public method keeps a field of view that is in `[1, 90]`
inside that range. -/
theorem fov_range_of_call {α : Type} [LinearOrderedField α] (c : Camera α) (k : Call α)
    (h : 1 ≤ c.FOV ∧ c.FOV ≤ 90) : 1 ≤ (c.call k).FOV ∧ (c.call k).FOV ≤ 90 := by
  cases k with
  | keyboard direction deltaTime =>
    simpa only [Camera.call, fov_of_processKeyboard] using h
  | movement xoffset yoffset constrainPitch =>
    simpa only [Camera.call, fov_of_processMovement] using h
  | scroll yoffset => exact fov_range_of_scroll c yoffset

/-- A sequence of calls keeps a field of view that is in `[1, 90]` inside that
range. -/
theorem fov_range_of_calls {α : Type} [LinearOrderedField α] (l : List (Call α)) :
    ∀ c : Camera α, 1 ≤ c.FOV ∧ c.FOV ≤ 90 → 1 ≤ (c.calls l).FOV ∧ (c.calls l).FOV ≤ 90 := by
  induction l with
  | nil => intro c h; exact h
  | cons k t ih =>
    intro c h
    exact ih (c.call k) (fov_range_of_call c k h)

/-- A sequence of scrolls keeps a field of view that is in `[1, 90]` inside
that range. -/
theorem fov_range_of_scrolls {α : Type} [LinearOrderedField α] (l : List α) :
    ∀ c : Camera α, 1 ≤ c.FOV ∧ c.FOV ≤ 90 → 1 ≤ (c.scrolls l).FOV ∧ (c.scrolls l).FOV ≤ 90 := by
  induction l with
  | nil => intro c h; exact h
  | cons y t ih =>
    intro c _
    exact ih (c.ProcessMouseScroll y) (fov_range_of_scroll c y)

/-- A sequence of constrained movements that ends with the offsets `o` is the
sequence before `o` followed by one more call. -/
theorem movements_concat {α : Type} [Add α] [Mul α] [Neg α] [LT α] [OfNat α 89]
    [∀ a b : α, Decidable (a < b)] (c : Camera α) (l : List (α × α)) (o : α × α) :
    c.movements (l ++ [o]) = (c.movements l).ProcessMovement o.1 o.2 true := by
  simp [Camera.movements, List.foldl_append]

/-- In exact arithmetic, where every scalar is a finite number, the pitch is
in `[-89, 89]` after any non-empty sequence of constrained `ProcessMovement`
calls. -/
theorem pitch_in_range_after_constrained_movements_exact {α : Type} [LinearOrderedField α]
    (c : Camera α) (l : List (α × α)) (h : l ≠ []) :
    -89 ≤ (c.movements l).Pitch ∧ (c.movements l).Pitch ≤ 89 := by
  obtain ⟨init, o, rfl⟩ : ∃ init o, l = init ++ [o] :=
    ⟨l.dropLast, l.getLast h, (List.dropLast_append_getLast h).symm⟩
  rw [movements_concat]
  exact pitch_range_of_constrained_step _ _ _

/-! ### The pitch clamp on `float` values -/

/-- `a < b` on `F32` unfolded. -/
theorem F32.lt_iff (a b : F32) : a < b ↔ F32.blt a b = true := Iff.rfl

/-- `a > b` on `F32` unfolded. -/
theorem F32.gt_iff (a b : F32) : a > b ↔ F32.blt b a = true := Iff.rfl

/-- `a <= b` on `F32` unfolded. -/
theorem F32.le_iff (a b : F32) : a ≤ b ↔ F32.ble a b = true := Iff.rfl

/-- The literal `89` on `F32`. -/
theorem F32.lit89 : (89 : F32) = F32.fin 89 := rfl

/-- A numeral on `F32` unfolded. -/
theorem F32.ofNat_eq (n : ℕ) : (OfNat.ofNat n : F32) = F32.fin (n : ℚ) := rfl

/-- Negation of a finite `F32`. -/
theorem F32.neg_fin (q : ℚ) : -(F32.fin q) = F32.fin (-q) := rfl

/-- `a + b` on `F32` unfolded. -/
theorem F32.add_eq (a b : F32) : a + b = F32.add a b := rfl

/-- `a * b` on `F32` unfolded. -/
theorem F32.mul_eq (a b : F32) : a * b = F32.mul a b := rfl

/-- One constrained `ProcessMovement` call on `float` values leaves a pitch
that is in `[-89, 89]` unless it is NaN. -/
theorem pitch_range_of_constrained_step_F32 (c : Camera F32) (xoffset yoffset : F32)
    (h : (c.ProcessMovement xoffset yoffset true).Pitch ≠ F32.nan) :
    -89 ≤ (c.ProcessMovement xoffset yoffset true).Pitch ∧
      (c.ProcessMovement xoffset yoffset true).Pitch ≤ 89 := by
  revert h
  simp only [Camera.ProcessMovement, if_true]
  generalize c.Pitch + yoffset * c.MouseSensitivity = v
  have g89 : ¬ ((89 : F32) < -89) := by
    simp [F32.lt_iff, F32.lit89, F32.neg_fin, F32.blt]
  cases v with
  | fin q =>
    intro _
    by_cases h1 : (89 : ℚ) < q
    · have g1 : F32.fin q > 89 := by
        simp [F32.gt_iff, F32.lit89, F32.blt, h1]
      simp only [g1, g89, if_true, if_false]
      simp [F32.le_iff, F32.lit89, F32.neg_fin, F32.ble]
    · have g1 : ¬ (F32.fin q > 89) := by
        simp [F32.gt_iff, F32.lit89, F32.blt, h1]
      simp only [g1, if_false]
      by_cases h2 : q < -89
      · have g2 : F32.fin q < -89 := by
          simp [F32.lt_iff, F32.lit89, F32.neg_fin, F32.blt, h2]
        simp only [g2, if_true]
        simp [F32.le_iff, F32.lit89, F32.neg_fin, F32.ble]
      · have g2 : ¬ (F32.fin q < -89) := by
          simp [F32.lt_iff, F32.lit89, F32.neg_fin, F32.blt, h2]
        simp only [g2, if_false]
        simp [F32.le_iff, F32.lit89, F32.neg_fin, F32.ble]
        exact ⟨not_lt.mp h2, not_lt.mp h1⟩
  | pinf =>
    intro _
    have g1 : F32.pinf > 89 := by simp [F32.gt_iff, F32.lit89, F32.blt]
    simp only [g1, g89, if_true, if_false]
    simp [F32.le_iff, F32.lit89, F32.neg_fin, F32.ble]
  | ninf =>
    intro _
    have g1 : ¬ (F32.ninf > 89) := by simp [F32.gt_iff, F32.lit89, F32.blt]
    have g2 : F32.ninf < -89 := by simp [F32.lt_iff, F32.lit89, F32.neg_fin, F32.blt]
    simp only [g1, g2, if_true, if_false]
    simp [F32.le_iff, F32.lit89, F32.neg_fin, F32.ble]
  | nan =>
    have g1 : ¬ (F32.nan > 89) := by simp [F32.gt_iff, F32.lit89, F32.blt]
    have g2 : ¬ (F32.nan < -89) := by simp [F32.lt_iff, F32.lit89, F32.neg_fin, F32.blt]
    simp only [g1, g2, if_false]
    intro h
    exact absurd rfl h

/-- After a constrained `ProcessMovement` call on `float` values the pitch is
NaN exactly when the sum `Pitch + yoffset * MouseSensitivity` is NaN. -/
theorem pitch_nan_iff_sum_nan (c : Camera F32) (xoffset yoffset : F32) :
    (c.ProcessMovement xoffset yoffset true).Pitch = F32.nan ↔
      c.Pitch + yoffset * c.MouseSensitivity = F32.nan := by
  simp only [Camera.ProcessMovement, if_true]
  generalize c.Pitch + yoffset * c.MouseSensitivity = v
  have g89 : ¬ ((89 : F32) < -89) := by
    simp [F32.lt_iff, F32.lit89, F32.neg_fin, F32.blt]
  cases v with
  | fin q =>
    by_cases h1 : (89 : ℚ) < q
    · have g1 : F32.fin q > 89 := by
        simp [F32.gt_iff, F32.lit89, F32.blt, h1]
      simp only [g1, g89, if_true, if_false]
      simp [F32.lit89]
    · have g1 : ¬ (F32.fin q > 89) := by
        simp [F32.gt_iff, F32.lit89, F32.blt, h1]
      simp only [g1, if_false]
      by_cases h2 : q < -89
      · have g2 : F32.fin q < -89 := by
          simp [F32.lt_iff, F32.lit89, F32.neg_fin, F32.blt, h2]
        simp only [g2, if_true]
        simp [F32.lit89, F32.neg_fin]
      · have g2 : ¬ (F32.fin q < -89) := by
          simp [F32.lt_iff, F32.lit89, F32.neg_fin, F32.blt, h2]
        simp only [g2, if_false]
  | pinf =>
    have g1 : F32.pinf > 89 := by simp [F32.gt_iff, F32.lit89, F32.blt]
    simp only [g1, g89, if_true, if_false]
    simp [F32.lit89]
  | ninf =>
    have g1 : ¬ (F32.ninf > 89) := by simp [F32.gt_iff, F32.lit89, F32.blt]
    have g2 : F32.ninf < -89 := by simp [F32.lt_iff, F32.lit89, F32.neg_fin, F32.blt]
    simp only [g1, g2, if_true, if_false]
    simp [F32.lit89, F32.neg_fin]
  | nan =>
    have g1 : ¬ (F32.nan > 89) := by simp [F32.gt_iff, F32.lit89, F32.blt]
    have g2 : ¬ (F32.nan < -89) := by simp [F32.lt_iff, F32.lit89, F32.neg_fin, F32.blt]
    simp only [g1, g2, if_false]

/-- A constrained `ProcessMovement` call whose pitch, sensitivity and y offset
are finite does not produce NaN. -/
theorem pitch_not_nan_of_finite (c : Camera F32) (xoffset : F32) (p s t : ℚ)
    (hp : c.Pitch = F32.fin p) (hs : c.MouseSensitivity = F32.fin s) :
    (c.ProcessMovement xoffset (F32.fin t) true).Pitch ≠ F32.nan := by
  rw [Ne, pitch_nan_iff_sum_nan, hp, hs, F32.add_eq, F32.mul_eq]
  simp only [F32.mul, F32.ofRat]
  split_ifs <;> simp [F32.add, F32.ofRat]
  split_ifs <;> simp

/-- C1 as stated fails on `float` values. A camera with `Pitch = 0` and
`MouseSensitivity = 7` moved by `ProcessMovement(0, 1e38f, false)` has
`Pitch = +inf`, since `1e38f * 7` overflows. From that state the constrained
call `ProcessMovement(0, -1e38f, true)` adds `-inf`: the pitch is NaN, both
clamp comparisons are false on it, and it is not in `[-89, 89]`.  The finite
value of `1e38f` is 99999996802856924650656260769173209088. -/
theorem C1_counterexample_pitch_nan :
    ((Camera.mk ⟨0, 0, 0⟩ ⟨0, 0, -1⟩ ⟨0, 1, 0⟩ ⟨1, 0, 0⟩ ⟨0, 1, 0⟩ (F32.fin (-90)) (F32.fin 0)
        (F32.fin 2.5) (F32.fin 7) (F32.fin 90) :
        Camera F32).ProcessMovement (F32.fin 0) (F32.fin 99999996802856924650656260769173209088)
        false).Pitch = F32.pinf ∧
    (((Camera.mk ⟨0, 0, 0⟩ ⟨0, 0, -1⟩ ⟨0, 1, 0⟩ ⟨1, 0, 0⟩ ⟨0, 1, 0⟩ (F32.fin (-90)) (F32.fin 0)
        (F32.fin 2.5) (F32.fin 7) (F32.fin 90) :
        Camera F32).ProcessMovement (F32.fin 0) (F32.fin 99999996802856924650656260769173209088)
        false).movements
        [(F32.fin 0, F32.fin (-99999996802856924650656260769173209088))]).Pitch = F32.nan ∧
    ¬ (-89 ≤ (((Camera.mk ⟨0, 0, 0⟩ ⟨0, 0, -1⟩ ⟨0, 1, 0⟩ ⟨1, 0, 0⟩ ⟨0, 1, 0⟩ (F32.fin (-90)) (F32.fin 0)
        (F32.fin 2.5) (F32.fin 7) (F32.fin 90) :
        Camera F32).ProcessMovement (F32.fin 0) (F32.fin 99999996802856924650656260769173209088)
        false).movements
        [(F32.fin 0, F32.fin (-99999996802856924650656260769173209088))]).Pitch ∧
      (((Camera.mk ⟨0, 0, 0⟩ ⟨0, 0, -1⟩ ⟨0, 1, 0⟩ ⟨1, 0, 0⟩ ⟨0, 1, 0⟩ (F32.fin (-90)) (F32.fin 0)
        (F32.fin 2.5) (F32.fin 7) (F32.fin 90) :
        Camera F32).ProcessMovement (F32.fin 0) (F32.fin 99999996802856924650656260769173209088)
        false).movements
        [(F32.fin 0, F32.fin (-99999996802856924650656260769173209088))]).Pitch ≤ 89) := by
  have h1 : ((Camera.mk ⟨0, 0, 0⟩ ⟨0, 0, -1⟩ ⟨0, 1, 0⟩ ⟨1, 0, 0⟩ ⟨0, 1, 0⟩ (F32.fin (-90)) (F32.fin 0)
        (F32.fin 2.5) (F32.fin 7) (F32.fin 90) :
      Camera F32).ProcessMovement (F32.fin 0) (F32.fin 99999996802856924650656260769173209088)
      false).Pitch = F32.pinf := by
    simp only [Camera.ProcessMovement]
    norm_num [F32.add_eq, F32.mul_eq, F32.lit89, F32.add, F32.mul, F32.ofRat, F32.overflow]
  have h2 : (((Camera.mk ⟨0, 0, 0⟩ ⟨0, 0, -1⟩ ⟨0, 1, 0⟩ ⟨1, 0, 0⟩ ⟨0, 1, 0⟩ (F32.fin (-90)) (F32.fin 0)
        (F32.fin 2.5) (F32.fin 7) (F32.fin 90) :
      Camera F32).ProcessMovement (F32.fin 0) (F32.fin 99999996802856924650656260769173209088)
      false).movements
      [(F32.fin 0, F32.fin (-99999996802856924650656260769173209088))]).Pitch = F32.nan := by
    simp only [Camera.ProcessMovement, Camera.movements, List.foldl]
    norm_num [F32.add_eq, F32.mul_eq, F32.lit89, F32.add, F32.mul, F32.ofRat, F32.overflow,
      F32.gt_iff, F32.lt_iff, F32.blt, F32.neg_fin]
  refine ⟨h1, h2, ?_⟩
  rw [h2]
  rintro ⟨-, h⟩
  simp [F32.le_iff, F32.ble] at h

/-- C1, amended. On `float` values, from any camera state, after any non-empty
sequence of `ProcessMovement` calls made with `constrainPitch = true` and
arbitrary offsets, `Pitch` lies in the closed interval `[-89, 89]` unless it is
NaN. -/
theorem C1_pitch_in_range_unless_nan (c : Camera F32) (l : List (F32 × F32)) (h : l ≠ [])
    (hn : (c.movements l).Pitch ≠ F32.nan) :
    -89 ≤ (c.movements l).Pitch ∧ (c.movements l).Pitch ≤ 89 := by
  obtain ⟨init, o, rfl⟩ : ∃ init o, l = init ++ [o] :=
    ⟨l.dropLast, l.getLast h, (List.dropLast_append_getLast h).symm⟩
  rw [movements_concat] at hn ⊢
  exact pitch_range_of_constrained_step_F32 _ _ _ hn

/-- Witness for C1: a camera that starts at `Pitch = +inf` with sensitivity 7,
moved by the constrained calls `(0, 1e38f)`, whose scaled offset overflows to
`+inf`, and `(3, -0.5)`; the pitch ends at 85.5. -/
theorem C1_pitch_in_range_unless_nan_witness :
    ([(F32.fin 0, F32.fin 99999996802856924650656260769173209088), (F32.fin 3, F32.fin (-1/2))] :
        List (F32 × F32)) ≠ [] ∧
    ((Camera.mk ⟨0, 0, 0⟩ ⟨0, 0, -1⟩ ⟨0, 1, 0⟩ ⟨1, 0, 0⟩ ⟨0, 1, 0⟩ (F32.fin (-90)) F32.pinf
        (F32.fin 2.5) (F32.fin 7) (F32.fin 90) : Camera F32).movements
        [(F32.fin 0, F32.fin 99999996802856924650656260769173209088), (F32.fin 3, F32.fin (-1/2))]).Pitch ≠
      F32.nan ∧
    -89 ≤ ((Camera.mk ⟨0, 0, 0⟩ ⟨0, 0, -1⟩ ⟨0, 1, 0⟩ ⟨1, 0, 0⟩ ⟨0, 1, 0⟩ (F32.fin (-90)) F32.pinf
        (F32.fin 2.5) (F32.fin 7) (F32.fin 90) : Camera F32).movements
        [(F32.fin 0, F32.fin 99999996802856924650656260769173209088), (F32.fin 3, F32.fin (-1/2))]).Pitch ∧
    ((Camera.mk ⟨0, 0, 0⟩ ⟨0, 0, -1⟩ ⟨0, 1, 0⟩ ⟨1, 0, 0⟩ ⟨0, 1, 0⟩ (F32.fin (-90)) F32.pinf
        (F32.fin 2.5) (F32.fin 7) (F32.fin 90) : Camera F32).movements
        [(F32.fin 0, F32.fin 99999996802856924650656260769173209088), (F32.fin 3, F32.fin (-1/2))]).Pitch ≤
      89 := by
  have hp : ((Camera.mk ⟨0, 0, 0⟩ ⟨0, 0, -1⟩ ⟨0, 1, 0⟩ ⟨1, 0, 0⟩ ⟨0, 1, 0⟩ (F32.fin (-90)) F32.pinf
        (F32.fin 2.5) (F32.fin 7) (F32.fin 90) : Camera F32).movements
      [(F32.fin 0, F32.fin 99999996802856924650656260769173209088), (F32.fin 3, F32.fin (-1/2))]).Pitch =
      F32.fin (171/2) := by
    simp only [Camera.ProcessMovement, Camera.movements, List.foldl, if_true, F32.gt_iff,
      F32.lt_iff, F32.add_eq, F32.mul_eq, F32.lit89, F32.neg_fin]
    norm_num [F32.add, F32.mul, F32.ofRat, F32.overflow, F32.blt]
  have hn : ((Camera.mk ⟨0, 0, 0⟩ ⟨0, 0, -1⟩ ⟨0, 1, 0⟩ ⟨1, 0, 0⟩ ⟨0, 1, 0⟩ (F32.fin (-90)) F32.pinf
        (F32.fin 2.5) (F32.fin 7) (F32.fin 90) : Camera F32).movements
      [(F32.fin 0, F32.fin 99999996802856924650656260769173209088), (F32.fin 3, F32.fin (-1/2))]).Pitch ≠
      F32.nan := by
    rw [hp]
    simp
  exact ⟨by simp, hn, C1_pitch_in_range_unless_nan _ _ (by simp) hn⟩

/-- C2. The field of view stays in `[1, 90]`: a camera fresh from either
constructor has `FOV = 90`, and after any sequence of `ProcessMouseScroll`
calls with arbitrary offsets, and more generally after any sequence of calls of
the public methods, `FOV` lies in the closed interval `[1, 90]`. -/
theorem C2_fov_in_range_in_reachable_states {α : Type} [LinearOrderedField α]
    (up0 right0 position up : Vec3 α) (posX posY posZ upX upY upZ yaw pitch : α)
    (ys : List α) (l : List (Call α)) :
    (Camera.ctor up0 right0 position up yaw pitch).FOV = 90 ∧
    (Camera.ctorScalars up0 right0 posX posY posZ upX upY upZ yaw pitch).FOV = 90 ∧
    (1 ≤ ((Camera.ctor up0 right0 position up yaw pitch).scrolls ys).FOV ∧
      ((Camera.ctor up0 right0 position up yaw pitch).scrolls ys).FOV ≤ 90) ∧
    (1 ≤ ((Camera.ctorScalars up0 right0 posX posY posZ upX upY upZ yaw pitch).scrolls ys).FOV ∧
      ((Camera.ctorScalars up0 right0 posX posY posZ upX upY upZ yaw pitch).scrolls ys).FOV ≤ 90) ∧
    (1 ≤ ((Camera.ctor up0 right0 position up yaw pitch).calls l).FOV ∧
      ((Camera.ctor up0 right0 position up yaw pitch).calls l).FOV ≤ 90) ∧
    (1 ≤ ((Camera.ctorScalars up0 right0 posX posY posZ upX upY upZ yaw pitch).calls l).FOV ∧
      ((Camera.ctorScalars up0 right0 posX posY posZ upX upY upZ yaw pitch).calls l).FOV ≤ 90) := by
  have h1 : (Camera.ctor up0 right0 position up yaw pitch).FOV = 90 := rfl
  have h2 : (Camera.ctorScalars up0 right0 posX posY posZ upX upY upZ yaw pitch).FOV = 90 := rfl
  have r1 : (1 : α) ≤ (Camera.ctor up0 right0 position up yaw pitch).FOV ∧
      (Camera.ctor up0 right0 position up yaw pitch).FOV ≤ 90 := by
    rw [h1]; constructor <;> norm_num
  have r2 : (1 : α) ≤ (Camera.ctorScalars up0 right0 posX posY posZ upX upY upZ yaw pitch).FOV ∧
      (Camera.ctorScalars up0 right0 posX posY posZ upX upY upZ yaw pitch).FOV ≤ 90 := by
    rw [h2]; constructor <;> norm_num
  exact ⟨h1, h2, fov_range_of_scrolls ys _ r1, fov_range_of_scrolls ys _ r2,
    fov_range_of_calls l _ r1, fov_range_of_calls l _ r2⟩

/-- `ProcessMovement` writes none of `Front`, `Right`, `Up`. -/
theorem basis_of_processMovement {α : Type} [LinearOrderedField α] (c : Camera α)
    (xoffset yoffset : α) (constrainPitch : Bool) :
    (c.ProcessMovement xoffset yoffset constrainPitch).Front = c.Front ∧
    (c.ProcessMovement xoffset yoffset constrainPitch).Right = c.Right ∧
    (c.ProcessMovement xoffset yoffset constrainPitch).Up = c.Up := by
  cases constrainPitch <;>
    simp [Camera.ProcessMovement, apply_ite Camera.Front, apply_ite Camera.Right,
      apply_ite Camera.Up]

/-- C3, at the failing input. The default camera turned by `ProcessMovement(900, 0)`
has `Yaw = 0` and `Pitch = 0`; its `Front` is still the `(0, 0, -1)` of the
constructor, while `updateCameraVectors` on that state gives `Front = (1, 0, 0)`:
the call did not recompute the basis. -/
theorem C3_processMovement_leaves_front_stale :
    ((Camera.ctor ⟨0, 0, 0⟩ ⟨0, 0, 0⟩ ⟨0, 0, 0⟩ ⟨0, 1, 0⟩ YAW PITCH :
        Camera ℝ).ProcessMovement 900 0 true).Yaw = 0 ∧
    ((Camera.ctor ⟨0, 0, 0⟩ ⟨0, 0, 0⟩ ⟨0, 0, 0⟩ ⟨0, 1, 0⟩ YAW PITCH :
        Camera ℝ).ProcessMovement 900 0 true).Pitch = 0 ∧
    ((Camera.ctor ⟨0, 0, 0⟩ ⟨0, 0, 0⟩ ⟨0, 0, 0⟩ ⟨0, 1, 0⟩ YAW PITCH :
        Camera ℝ).ProcessMovement 900 0 true).Front = ⟨0, 0, -1⟩ ∧
    ((Camera.ctor ⟨0, 0, 0⟩ ⟨0, 0, 0⟩ ⟨0, 0, 0⟩ ⟨0, 1, 0⟩ YAW PITCH :
        Camera ℝ).ProcessMovement 900 0 true).updateCameraVectors.Front = ⟨1, 0, 0⟩ ∧
    ((Camera.ctor ⟨0, 0, 0⟩ ⟨0, 0, 0⟩ ⟨0, 0, 0⟩ ⟨0, 1, 0⟩ YAW PITCH :
        Camera ℝ).ProcessMovement 900 0 true).Front ≠
      ((Camera.ctor ⟨0, 0, 0⟩ ⟨0, 0, 0⟩ ⟨0, 0, 0⟩ ⟨0, 1, 0⟩ YAW PITCH :
        Camera ℝ).ProcessMovement 900 0 true).updateCameraVectors.Front := by
  have hy : ((Camera.ctor ⟨0, 0, 0⟩ ⟨0, 0, 0⟩ ⟨0, 0, 0⟩ ⟨0, 1, 0⟩ YAW PITCH :
      Camera ℝ).ProcessMovement 900 0 true).Yaw = 0 := by
    norm_num [Camera.ProcessMovement, Camera.ctor, YAW, PITCH, MOUSE_SENSITIVITY,
      apply_ite Camera.Yaw]
  have hp : ((Camera.ctor ⟨0, 0, 0⟩ ⟨0, 0, 0⟩ ⟨0, 0, 0⟩ ⟨0, 1, 0⟩ YAW PITCH :
      Camera ℝ).ProcessMovement 900 0 true).Pitch = 0 := by
    norm_num [Camera.ProcessMovement, Camera.ctor, YAW, PITCH, MOUSE_SENSITIVITY,
      apply_ite Camera.Pitch]
  have hf : ((Camera.ctor ⟨0, 0, 0⟩ ⟨0, 0, 0⟩ ⟨0, 0, 0⟩ ⟨0, 1, 0⟩ YAW PITCH :
      Camera ℝ).ProcessMovement 900 0 true).Front = ⟨0, 0, -1⟩ :=
    (basis_of_processMovement _ _ _ _).1
  have hu : ((Camera.ctor ⟨0, 0, 0⟩ ⟨0, 0, 0⟩ ⟨0, 0, 0⟩ ⟨0, 1, 0⟩ YAW PITCH :
      Camera ℝ).ProcessMovement 900 0 true).updateCameraVectors.Front = ⟨1, 0, 0⟩ := by
    simp only [Camera.updateCameraVectors, hy, hp]
    simp [radians, normalize, inversesqrt, dot, Vec3.scale]
  refine ⟨hy, hp, hf, hu, ?_⟩
  rw [hf, hu]
  intro h
  have hx := congrArg Vec3.x h
  norm_num at hx

/-- C4. `ProcessKeyboard` moves `Position` by `Front * v` forward, `-Front * v`
backward, `-Right * v` left and `Right * v` right, where
`v = MovementSpeed * deltaTime`; with `MovementSpeed = 2.5`, `Front = (0, 0, -1)`
and `Position = (0, 0, 0)`, `ProcessKeyboard(FORWARD, 2.0)` gives
`Position = (0, 0, -5)`. -/
theorem C4_processKeyboard_position {α : Type} [LinearOrderedField α] (c : Camera α)
    (deltaTime : α) (up right worldUp : Vec3 α) (yaw pitch sensitivity fov : α) :
    (c.ProcessKeyboard Camera_Movement.FORWARD deltaTime).Position =
      c.Position.add (c.Front.scale (c.MovementSpeed * deltaTime)) ∧
    (c.ProcessKeyboard Camera_Movement.BACKWARD deltaTime).Position =
      c.Position.sub (c.Front.scale (c.MovementSpeed * deltaTime)) ∧
    (c.ProcessKeyboard Camera_Movement.LEFT deltaTime).Position =
      c.Position.sub (c.Right.scale (c.MovementSpeed * deltaTime)) ∧
    (c.ProcessKeyboard Camera_Movement.RIGHT deltaTime).Position =
      c.Position.add (c.Right.scale (c.MovementSpeed * deltaTime)) ∧
    ((Camera.mk ⟨0, 0, 0⟩ ⟨0, 0, -1⟩ up right worldUp yaw pitch 2.5 sensitivity fov :
        Camera α).ProcessKeyboard Camera_Movement.FORWARD 2.0).Position = ⟨0, 0, -5⟩ := by
  have hF : ∀ (s : Camera α) (t : α), (s.ProcessKeyboard Camera_Movement.FORWARD t).Position =
      s.Position.add (s.Front.scale (s.MovementSpeed * t)) := by
    intro s t
    simp [Camera.ProcessKeyboard]
  refine ⟨hF c deltaTime, by simp [Camera.ProcessKeyboard],
    by simp [Camera.ProcessKeyboard], by simp [Camera.ProcessKeyboard], ?_⟩
  rw [hF]
  simp only [Vec3.add, Vec3.scale]
  norm_num

/-- C6. `ProcessMouseScroll` sets `FOV` to `FOV - yoffset` clamped to `[1, 90]`,
that is `min(90, max(1, FOV - yoffset))`; from `FOV = 90`,
`ProcessMouseScroll(100)` gives `FOV = 1`. -/
theorem C6_processMouseScroll_fov {α : Type} [LinearOrderedField α] (c : Camera α)
    (yoffset : α) (position front up right worldUp : Vec3 α)
    (yaw pitch speed sensitivity : α) :
    (c.ProcessMouseScroll yoffset).FOV = min 90 (max 1 (c.FOV - yoffset)) ∧
    ((Camera.mk position front up right worldUp yaw pitch speed sensitivity 90 :
        Camera α).ProcessMouseScroll 100).FOV = 1 := by
  constructor
  · simp only [Camera.ProcessMouseScroll]
    by_cases h1 : c.FOV - yoffset < 1
    · have h90 : ¬ ((1 : α) > 90) := by norm_num
      simp only [h1, h90, if_true, if_false]
      rw [max_eq_left (le_of_lt h1), min_eq_right (by norm_num)]
    · by_cases h2 : c.FOV - yoffset > 90
      · simp only [h1, h2, if_true, if_false]
        rw [max_eq_right (not_lt.mp h1), min_eq_left (le_of_lt h2)]
      · simp only [h1, h2, if_false]
        rw [max_eq_right (not_lt.mp h1), min_eq_right (not_lt.mp h2)]
  · simp only [Camera.ProcessMouseScroll]
    norm_num

/-- C7, at the failing input. For the camera at `(1, 2, 3)` looking along
`(0, 0, -1)` with `Up = (0, 1, 0)`, the look-at transform of `Position`,
`Position + Front` and `Up` is the 4x4 matrix whose fourth column is the
translation `(-1, -2, -3, 1)`; `GetViewMAtrix` hands back the 3x3 identity, the
same value it returns for the camera at the origin: the fourth column and row
are lost in the `glm::mat3` return type. -/
theorem C7_getViewMAtrix_drops_translation :
    lookAt (⟨1, 2, 3⟩ : Vec3 ℝ) ((⟨1, 2, 3⟩ : Vec3 ℝ).add ⟨0, 0, -1⟩) ⟨0, 1, 0⟩ =
      ⟨⟨1, 0, 0, 0⟩, ⟨0, 1, 0, 0⟩, ⟨0, 0, 1, 0⟩, ⟨-1, -2, -3, 1⟩⟩ ∧
    (Camera.mk ⟨1, 2, 3⟩ ⟨0, 0, -1⟩ ⟨0, 1, 0⟩ ⟨1, 0, 0⟩ ⟨0, 1, 0⟩ (-90) 0 2.5 0.1 90 :
        Camera ℝ).GetViewMAtrix.1 = ⟨⟨1, 0, 0⟩, ⟨0, 1, 0⟩, ⟨0, 0, 1⟩⟩ ∧
    (Camera.mk ⟨1, 2, 3⟩ ⟨0, 0, -1⟩ ⟨0, 1, 0⟩ ⟨1, 0, 0⟩ ⟨0, 1, 0⟩ (-90) 0 2.5 0.1 90 :
        Camera ℝ).GetViewMAtrix.1 =
      (Camera.mk ⟨0, 0, 0⟩ ⟨0, 0, -1⟩ ⟨0, 1, 0⟩ ⟨1, 0, 0⟩ ⟨0, 1, 0⟩ (-90) 0 2.5 0.1 90 :
        Camera ℝ).GetViewMAtrix.1 := by
  refine ⟨?_, ?_, ?_⟩ <;>
    simp [Camera.GetViewMAtrix, Mat4.toMat3, lookAt, normalize, inversesqrt, dot, cross,
      Vec3.scale, Vec3.add, Vec3.sub]

/-- C8. `GetViewMAtrix` is a pure read: the camera after the call equals the
camera before it, field for field, and a second call right after the first
returns the same matrix. -/
theorem C8_getViewMAtrix_pure_read (c : Camera ℝ) :
    c.GetViewMAtrix.2 = c ∧
    (c.GetViewMAtrix.2.Position = c.Position ∧ c.GetViewMAtrix.2.Front = c.Front ∧
      c.GetViewMAtrix.2.Up = c.Up ∧ c.GetViewMAtrix.2.Right = c.Right ∧
      c.GetViewMAtrix.2.WorldUp = c.WorldUp ∧ c.GetViewMAtrix.2.Yaw = c.Yaw ∧
      c.GetViewMAtrix.2.Pitch = c.Pitch ∧ c.GetViewMAtrix.2.MovementSpeed = c.MovementSpeed ∧
      c.GetViewMAtrix.2.MouseSensitivity = c.MouseSensitivity ∧ c.GetViewMAtrix.2.FOV = c.FOV) ∧
    c.GetViewMAtrix.2.GetViewMAtrix.1 = c.GetViewMAtrix.1 := by
  have h : c.GetViewMAtrix.2 = c := by
    unfold Camera.GetViewMAtrix
    rfl
  refine ⟨h, ?_, ?_⟩
  · rw [h]
    exact ⟨rfl, rfl, rfl, rfl, rfl, rfl, rfl, rfl, rfl, rfl⟩
  · rw [h]

/-! ### Vector algebra for the basis recompute -/

/-- The dot product of a vector with itself is not negative. -/
theorem dot_self_nonneg (v : Vec3 ℝ) : 0 ≤ dot v v := by
  unfold dot
  nlinarith [mul_self_nonneg v.x, mul_self_nonneg v.y, mul_self_nonneg v.z]

/-- Only the zero vector has dot product zero with itself. -/
theorem eq_zero_of_dot_self_eq_zero (v : Vec3 ℝ) (h : dot v v = 0) : v = ⟨0, 0, 0⟩ := by
  unfold dot at h
  have hx : v.x = 0 := by
    nlinarith [mul_self_nonneg v.x, mul_self_nonneg v.y, mul_self_nonneg v.z]
  have hy : v.y = 0 := by
    nlinarith [mul_self_nonneg v.x, mul_self_nonneg v.y, mul_self_nonneg v.z]
  have hz : v.z = 0 := by
    nlinarith [mul_self_nonneg v.x, mul_self_nonneg v.y, mul_self_nonneg v.z]
  ext <;> assumption

/-- Scaling both arguments scales the dot product. -/
theorem dot_scale_scale (v w : Vec3 ℝ) (s t : ℝ) :
    dot (v.scale s) (w.scale t) = s * t * dot v w := by
  simp only [dot, Vec3.scale]
  ring

/-- Scaling the right argument scales the dot product. -/
theorem dot_scale_right (v w : Vec3 ℝ) (t : ℝ) : dot v (w.scale t) = t * dot v w := by
  simp only [dot, Vec3.scale]
  ring

/-- Scaling the left argument scales the dot product. -/
theorem dot_scale_left (v w : Vec3 ℝ) (s : ℝ) : dot (v.scale s) w = s * dot v w := by
  simp only [dot, Vec3.scale]
  ring

/-- The dot product is symmetric. -/
theorem dot_comm (v w : Vec3 ℝ) : dot v w = dot w v := by
  simp only [dot]
  ring

/-- A cross product is orthogonal to its first factor. -/
theorem dot_cross_left (a b : Vec3 ℝ) : dot (cross a b) a = 0 := by
  simp only [dot, cross]
  ring

/-- A cross product is orthogonal to its second factor. -/
theorem dot_cross_right (a b : Vec3 ℝ) : dot (cross a b) b = 0 := by
  simp only [dot, cross]
  ring

/-- Lagrange identity for the squared length of a cross product. -/
theorem dot_cross_cross (a b : Vec3 ℝ) :
    dot (cross a b) (cross a b) = dot a a * dot b b - dot a b * dot a b := by
  simp only [dot, cross]
  ring

/-- Normalising a vector that is not zero gives a vector whose dot product
with itself is 1. -/
theorem dot_normalize_self (v : Vec3 ℝ) (h : dot v v ≠ 0) :
    dot (normalize v) (normalize v) = 1 := by
  have hpos : 0 < dot v v := lt_of_le_of_ne (dot_self_nonneg v) (Ne.symm h)
  have hs : Real.sqrt (dot v v) * Real.sqrt (dot v v) = dot v v :=
    Real.mul_self_sqrt (le_of_lt hpos)
  unfold normalize inversesqrt
  rw [dot_scale_scale]
  calc 1 / Real.sqrt (dot v v) * (1 / Real.sqrt (dot v v)) * dot v v
      = dot v v / (Real.sqrt (dot v v) * Real.sqrt (dot v v)) := by ring
    _ = 1 := by rw [hs]; exact div_self h

/-- Normalising a vector of unit length returns it. -/
theorem normalize_of_dot_self_eq_one (v : Vec3 ℝ) (h : dot v v = 1) : normalize v = v := by
  unfold normalize inversesqrt
  rw [h]
  ext <;> simp [Vec3.scale]

/-- A vector whose dot product with itself is 1 has length 1. -/
theorem length_of_dot_self_eq_one (v : Vec3 ℝ) (h : dot v v = 1) : length v = 1 := by
  unfold length
  rw [h, Real.sqrt_one]

/-- The direction built from a yaw and a pitch angle has unit length before it
is normalised. -/
theorem dot_angles_self (a b : ℝ) :
    dot (⟨Real.cos a * Real.cos b, Real.sin b, Real.sin a * Real.cos b⟩ : Vec3 ℝ)
      ⟨Real.cos a * Real.cos b, Real.sin b, Real.sin a * Real.cos b⟩ = 1 := by
  simp only [dot]
  linear_combination (Real.cos b) ^ 2 * Real.sin_sq_add_cos_sq a + Real.sin_sq_add_cos_sq b

/-- After `updateCameraVectors`, `Front` is the unit vector of the two angles. -/
theorem front_of_updateCameraVectors (c : Camera ℝ) :
    c.updateCameraVectors.Front =
      ⟨Real.cos (radians c.Yaw) * Real.cos (radians c.Pitch), Real.sin (radians c.Pitch),
        Real.sin (radians c.Yaw) * Real.cos (radians c.Pitch)⟩ := by
  simp only [Camera.updateCameraVectors]
  exact normalize_of_dot_self_eq_one _ (dot_angles_self _ _)

/-- After `updateCameraVectors`, `Front` has dot product 1 with itself. -/
theorem dot_front_of_updateCameraVectors (c : Camera ℝ) :
    dot c.updateCameraVectors.Front c.updateCameraVectors.Front = 1 := by
  rw [front_of_updateCameraVectors]
  exact dot_angles_self _ _

/-- After `updateCameraVectors`, `Right` is the normalised cross product of the
new `Front` and `WorldUp`. -/
theorem right_of_updateCameraVectors (c : Camera ℝ) :
    c.updateCameraVectors.Right = normalize (cross c.updateCameraVectors.Front c.WorldUp) := by
  simp only [Camera.updateCameraVectors]

/-- After `updateCameraVectors`, `Up` is the normalised cross product of the
new `Right` and the new `Front`. -/
theorem up_of_updateCameraVectors (c : Camera ℝ) :
    c.updateCameraVectors.Up =
      normalize (cross c.updateCameraVectors.Right c.updateCameraVectors.Front) := by
  simp only [Camera.updateCameraVectors]

/-- C9 as stated fails: constructed with `WorldUp = (0, 0, 0)` and the default
angles `Yaw = -90`, `Pitch = 0`, the camera after `updateCameraVectors` does not
have three mutually orthogonal vectors of length 1, since `Right` is the
normalisation of the zero vector. -/
theorem C9_counterexample_zero_worldUp :
    ¬ (dot (Camera.ctor ⟨0, 0, 0⟩ ⟨0, 0, 0⟩ ⟨0, 0, 0⟩ ⟨0, 0, 0⟩ YAW PITCH :
          Camera ℝ).updateCameraVectors.Front
        (Camera.ctor ⟨0, 0, 0⟩ ⟨0, 0, 0⟩ ⟨0, 0, 0⟩ ⟨0, 0, 0⟩ YAW PITCH :
          Camera ℝ).updateCameraVectors.Right = 0 ∧
      dot (Camera.ctor ⟨0, 0, 0⟩ ⟨0, 0, 0⟩ ⟨0, 0, 0⟩ ⟨0, 0, 0⟩ YAW PITCH :
          Camera ℝ).updateCameraVectors.Front
        (Camera.ctor ⟨0, 0, 0⟩ ⟨0, 0, 0⟩ ⟨0, 0, 0⟩ ⟨0, 0, 0⟩ YAW PITCH :
          Camera ℝ).updateCameraVectors.Up = 0 ∧
      dot (Camera.ctor ⟨0, 0, 0⟩ ⟨0, 0, 0⟩ ⟨0, 0, 0⟩ ⟨0, 0, 0⟩ YAW PITCH :
          Camera ℝ).updateCameraVectors.Right
        (Camera.ctor ⟨0, 0, 0⟩ ⟨0, 0, 0⟩ ⟨0, 0, 0⟩ ⟨0, 0, 0⟩ YAW PITCH :
          Camera ℝ).updateCameraVectors.Up = 0 ∧
      length (Camera.ctor ⟨0, 0, 0⟩ ⟨0, 0, 0⟩ ⟨0, 0, 0⟩ ⟨0, 0, 0⟩ YAW PITCH :
          Camera ℝ).updateCameraVectors.Front = 1 ∧
      length (Camera.ctor ⟨0, 0, 0⟩ ⟨0, 0, 0⟩ ⟨0, 0, 0⟩ ⟨0, 0, 0⟩ YAW PITCH :
          Camera ℝ).updateCameraVectors.Right = 1 ∧
      length (Camera.ctor ⟨0, 0, 0⟩ ⟨0, 0, 0⟩ ⟨0, 0, 0⟩ ⟨0, 0, 0⟩ YAW PITCH :
          Camera ℝ).updateCameraVectors.Up = 1) := by
  rintro ⟨-, -, -, -, hr, -⟩
  rw [right_of_updateCameraVectors] at hr
  have hw : (Camera.ctor ⟨0, 0, 0⟩ ⟨0, 0, 0⟩ ⟨0, 0, 0⟩ ⟨0, 0, 0⟩ YAW PITCH :
      Camera ℝ).WorldUp = ⟨0, 0, 0⟩ := rfl
  rw [hw] at hr
  simp [length, normalize, inversesqrt, dot, cross, Vec3.scale] at hr

/-- C9, amended. After `updateCameraVectors`, when the cross product of the new
`Front` and `WorldUp` is not the zero vector (`WorldUp` is neither zero nor
parallel to the new `Front`), `Front`, `Right` and `Up` are mutually orthogonal
and each has length 1. -/
theorem C9_basis_orthonormal_after_update (c : Camera ℝ)
    (h : cross c.updateCameraVectors.Front c.WorldUp ≠ ⟨0, 0, 0⟩) :
    dot c.updateCameraVectors.Front c.updateCameraVectors.Right = 0 ∧
    dot c.updateCameraVectors.Front c.updateCameraVectors.Up = 0 ∧
    dot c.updateCameraVectors.Right c.updateCameraVectors.Up = 0 ∧
    length c.updateCameraVectors.Front = 1 ∧
    length c.updateCameraVectors.Right = 1 ∧
    length c.updateCameraVectors.Up = 1 := by
  have hF : dot c.updateCameraVectors.Front c.updateCameraVectors.Front = 1 :=
    dot_front_of_updateCameraVectors c
  have hne : dot (cross c.updateCameraVectors.Front c.WorldUp)
      (cross c.updateCameraVectors.Front c.WorldUp) ≠ 0 :=
    fun h0 => h (eq_zero_of_dot_self_eq_zero _ h0)
  have hR : dot c.updateCameraVectors.Right c.updateCameraVectors.Right = 1 := by
    rw [right_of_updateCameraVectors]
    exact dot_normalize_self _ hne
  have hFR : dot c.updateCameraVectors.Front c.updateCameraVectors.Right = 0 := by
    rw [right_of_updateCameraVectors, normalize, dot_scale_right,
      dot_comm c.updateCameraVectors.Front (cross c.updateCameraVectors.Front c.WorldUp),
      dot_cross_left, mul_zero]
  have hX : dot (cross c.updateCameraVectors.Right c.updateCameraVectors.Front)
      (cross c.updateCameraVectors.Right c.updateCameraVectors.Front) = 1 := by
    rw [dot_cross_cross, hR, hF, dot_comm c.updateCameraVectors.Right, hFR]
    ring
  have hU : c.updateCameraVectors.Up =
      cross c.updateCameraVectors.Right c.updateCameraVectors.Front := by
    rw [up_of_updateCameraVectors]
    exact normalize_of_dot_self_eq_one _ hX
  refine ⟨hFR, ?_, ?_, length_of_dot_self_eq_one _ hF, length_of_dot_self_eq_one _ hR, ?_⟩
  · rw [hU, dot_comm, dot_cross_right]
  · rw [hU, dot_comm, dot_cross_left]
  · rw [hU]
    exact length_of_dot_self_eq_one _ hX

/-- Witness for C9: the camera with `Yaw = 0`, `Pitch = 0` and
`WorldUp = (0, 1, 0)`, whose new `Front` is `(1, 0, 0)`. -/
theorem C9_basis_orthonormal_witness :
    cross (Camera.ctor ⟨0, 0, 0⟩ ⟨0, 0, 0⟩ ⟨0, 0, 0⟩ ⟨0, 1, 0⟩ 0 0 :
        Camera ℝ).updateCameraVectors.Front
      (Camera.ctor ⟨0, 0, 0⟩ ⟨0, 0, 0⟩ ⟨0, 0, 0⟩ ⟨0, 1, 0⟩ 0 0 : Camera ℝ).WorldUp ≠ ⟨0, 0, 0⟩ ∧
    (dot (Camera.ctor ⟨0, 0, 0⟩ ⟨0, 0, 0⟩ ⟨0, 0, 0⟩ ⟨0, 1, 0⟩ 0 0 :
        Camera ℝ).updateCameraVectors.Front
      (Camera.ctor ⟨0, 0, 0⟩ ⟨0, 0, 0⟩ ⟨0, 0, 0⟩ ⟨0, 1, 0⟩ 0 0 :
        Camera ℝ).updateCameraVectors.Right = 0 ∧
    dot (Camera.ctor ⟨0, 0, 0⟩ ⟨0, 0, 0⟩ ⟨0, 0, 0⟩ ⟨0, 1, 0⟩ 0 0 :
        Camera ℝ).updateCameraVectors.Front
      (Camera.ctor ⟨0, 0, 0⟩ ⟨0, 0, 0⟩ ⟨0, 0, 0⟩ ⟨0, 1, 0⟩ 0 0 :
        Camera ℝ).updateCameraVectors.Up = 0 ∧
    dot (Camera.ctor ⟨0, 0, 0⟩ ⟨0, 0, 0⟩ ⟨0, 0, 0⟩ ⟨0, 1, 0⟩ 0 0 :
        Camera ℝ).updateCameraVectors.Right
      (Camera.ctor ⟨0, 0, 0⟩ ⟨0, 0, 0⟩ ⟨0, 0, 0⟩ ⟨0, 1, 0⟩ 0 0 :
        Camera ℝ).updateCameraVectors.Up = 0 ∧
    length (Camera.ctor ⟨0, 0, 0⟩ ⟨0, 0, 0⟩ ⟨0, 0, 0⟩ ⟨0, 1, 0⟩ 0 0 :
        Camera ℝ).updateCameraVectors.Front = 1 ∧
    length (Camera.ctor ⟨0, 0, 0⟩ ⟨0, 0, 0⟩ ⟨0, 0, 0⟩ ⟨0, 1, 0⟩ 0 0 :
        Camera ℝ).updateCameraVectors.Right = 1 ∧
    length (Camera.ctor ⟨0, 0, 0⟩ ⟨0, 0, 0⟩ ⟨0, 0, 0⟩ ⟨0, 1, 0⟩ 0 0 :
        Camera ℝ).updateCameraVectors.Up = 1) := by
  have h0 : cross (Camera.ctor ⟨0, 0, 0⟩ ⟨0, 0, 0⟩ ⟨0, 0, 0⟩ ⟨0, 1, 0⟩ 0 0 :
        Camera ℝ).updateCameraVectors.Front
      (Camera.ctor ⟨0, 0, 0⟩ ⟨0, 0, 0⟩ ⟨0, 0, 0⟩ ⟨0, 1, 0⟩ 0 0 : Camera ℝ).WorldUp ≠
      ⟨0, 0, 0⟩ := by
    rw [front_of_updateCameraVectors]
    simp [Camera.ctor, radians, cross]
  exact ⟨h0, C9_basis_orthonormal_after_update _ h0⟩

/-- C10. `updateCameraVectors` implements the recompute contract: the new
`Front`, `Right` and `Up` are the `front`, `right` and `up` of the contract for
the current `Yaw`, `Pitch` and `WorldUp`, that is
`Front = normalize(cos(rad(Yaw))*cos(rad(Pitch)), sin(rad(Pitch)), sin(rad(Yaw))*cos(rad(Pitch)))`,
`Right = normalize(cross(Front, WorldUp))`, `Up = normalize(cross(Right, Front))`,
and every other field keeps its value. -/
theorem C10_updateCameraVectors_implements_contract (c : Camera ℝ) :
    c.updateCameraVectors.Front = (recomputeContract c.Yaw c.Pitch c.WorldUp).front ∧
    c.updateCameraVectors.Right = (recomputeContract c.Yaw c.Pitch c.WorldUp).right ∧
    c.updateCameraVectors.Up = (recomputeContract c.Yaw c.Pitch c.WorldUp).up ∧
    c.updateCameraVectors.Front =
      normalize ⟨Real.cos (radians c.Yaw) * Real.cos (radians c.Pitch),
        Real.sin (radians c.Pitch), Real.sin (radians c.Yaw) * Real.cos (radians c.Pitch)⟩ ∧
    c.updateCameraVectors.Right = normalize (cross c.updateCameraVectors.Front c.WorldUp) ∧
    c.updateCameraVectors.Up =
      normalize (cross c.updateCameraVectors.Right c.updateCameraVectors.Front) ∧
    c.updateCameraVectors.Position = c.Position ∧
    c.updateCameraVectors.WorldUp = c.WorldUp ∧
    c.updateCameraVectors.Yaw = c.Yaw ∧
    c.updateCameraVectors.Pitch = c.Pitch ∧
    c.updateCameraVectors.MovementSpeed = c.MovementSpeed ∧
    c.updateCameraVectors.MouseSensitivity = c.MouseSensitivity ∧
    c.updateCameraVectors.FOV = c.FOV := by
  refine ⟨?_, ?_, ?_, ?_, ?_, ?_, ?_, ?_, ?_, ?_, ?_, ?_, ?_⟩ <;>
    simp only [Camera.updateCameraVectors, recomputeContract]

/-- The default yaw of -90 degrees is minus a quarter turn in radians. -/
theorem radians_YAW : radians YAW = -(Real.pi / 2) := by
  unfold radians YAW
  ring

/-- The default pitch of 0 degrees is 0 radians. -/
theorem radians_PITCH : radians PITCH = 0 := by
  unfold radians PITCH
  ring

/-- C11. With the default angles `Yaw = -90` and `Pitch = 0`, whatever the
other fields, `updateCameraVectors` yields `Front = (0, 0, -1)`, which is the
`Front` both constructors store. -/
theorem C11_default_angles_front (c : Camera ℝ) (up0 right0 position up : Vec3 ℝ)
    (posX posY posZ upX upY upZ yaw pitch : ℝ) :
    ({ c with Yaw := YAW, Pitch := PITCH } : Camera ℝ).updateCameraVectors.Front = ⟨0, 0, -1⟩ ∧
    (Camera.ctor up0 right0 position up YAW PITCH).updateCameraVectors.Front =
      (Camera.ctor up0 right0 position up yaw pitch).Front ∧
    (Camera.ctorScalars up0 right0 posX posY posZ upX upY upZ YAW PITCH).updateCameraVectors.Front =
      (Camera.ctorScalars up0 right0 posX posY posZ upX upY upZ yaw pitch).Front := by
  have key : ∀ s : Camera ℝ, s.Yaw = YAW → s.Pitch = PITCH →
      s.updateCameraVectors.Front = ⟨0, 0, -1⟩ := by
    intro s hy hp
    rw [front_of_updateCameraVectors, hy, hp, radians_YAW, radians_PITCH]
    simp
  exact ⟨key _ rfl rfl, key _ rfl rfl, key _ rfl rfl⟩

/-- C12 as stated fails: the default camera (pitch 0, sensitivity 0.1) after
`ProcessMovement(100, 500, true)` has `Pitch = 50`, which is not 89. -/
theorem C12_counterexample_pitch_is_50 :
    ((Camera.ctorDefault ⟨0, 0, 0⟩ ⟨0, 0, 0⟩ : Camera ℚ).ProcessMovement 100 500 true).Pitch = 50 ∧
    ((Camera.ctorDefault ⟨0, 0, 0⟩ ⟨0, 0, 0⟩ : Camera ℚ).ProcessMovement 100 500 true).Pitch ≠ 89 := by
  have h : ((Camera.ctorDefault ⟨0, 0, 0⟩ ⟨0, 0, 0⟩ : Camera ℚ).ProcessMovement
      100 500 true).Pitch = 50 := by
    norm_num [Camera.ProcessMovement, Camera.ctorDefault, Camera.ctor, YAW, PITCH,
      MOUSE_SENSITIVITY, apply_ite Camera.Pitch]
  refine ⟨h, ?_⟩
  rw [h]
  norm_num

/-- C12, amended. Starting from pitch 0 with mouse sensitivity 0.1, whatever
the other fields, `ProcessMovement(100, 500, true)` leaves `Pitch = 50`: the
scaled offset `500 * 0.1 = 50` is inside `[-89, 89]` and is not clamped. -/
theorem C12_scenario_pitch_is_50 {α : Type} [LinearOrderedField α]
    (position front up right worldUp : Vec3 α) (yaw speed fov : α) :
    ((Camera.mk position front up right worldUp yaw 0 speed 0.1 fov :
        Camera α).ProcessMovement 100 500 true).Pitch = 50 := by
  have h50 : (0 : α) + 500 * 0.1 = 50 := by norm_num
  have h1 : ¬ ((50 : α) > 89) := by norm_num
  have h2 : ¬ ((50 : α) < -89) := by norm_num
  simp only [Camera.ProcessMovement, if_true, h50, h1, h2, if_false]

/-- C13. Construction stores its arguments and the defaults: both constructors
give `Position`, `WorldUp`, `Yaw`, `Pitch` as passed, `Front = (0, 0, -1)`,
`MovementSpeed = 2.5`, `MouseSensitivity = 0.1`, `FOV = 90`; with no argument
the vector constructor gives `Position = (0, 0, 0)`, `WorldUp = (0, 1, 0)`,
`Yaw = -90`, `Pitch = 0`; and the scalar constructor agrees with the vector
constructor on every field a constructor writes. -/
theorem C13_constructors_store_arguments {α : Type} [LinearOrderedField α]
    (up0 right0 up1 right1 position up : Vec3 α) (posX posY posZ upX upY upZ yaw pitch : α) :
    ((Camera.ctor up0 right0 position up yaw pitch).Position = position ∧
      (Camera.ctor up0 right0 position up yaw pitch).WorldUp = up ∧
      (Camera.ctor up0 right0 position up yaw pitch).Yaw = yaw ∧
      (Camera.ctor up0 right0 position up yaw pitch).Pitch = pitch ∧
      (Camera.ctor up0 right0 position up yaw pitch).Front = ⟨0, 0, -1⟩ ∧
      (Camera.ctor up0 right0 position up yaw pitch).MovementSpeed = 2.5 ∧
      (Camera.ctor up0 right0 position up yaw pitch).MouseSensitivity = 0.1 ∧
      (Camera.ctor up0 right0 position up yaw pitch).FOV = 90) ∧
    ((Camera.ctorScalars up0 right0 posX posY posZ upX upY upZ yaw pitch).Position =
        ⟨posX, posY, posZ⟩ ∧
      (Camera.ctorScalars up0 right0 posX posY posZ upX upY upZ yaw pitch).WorldUp =
        ⟨upX, upY, upZ⟩ ∧
      (Camera.ctorScalars up0 right0 posX posY posZ upX upY upZ yaw pitch).Yaw = yaw ∧
      (Camera.ctorScalars up0 right0 posX posY posZ upX upY upZ yaw pitch).Pitch = pitch ∧
      (Camera.ctorScalars up0 right0 posX posY posZ upX upY upZ yaw pitch).Front = ⟨0, 0, -1⟩ ∧
      (Camera.ctorScalars up0 right0 posX posY posZ upX upY upZ yaw pitch).MovementSpeed = 2.5 ∧
      (Camera.ctorScalars up0 right0 posX posY posZ upX upY upZ yaw pitch).MouseSensitivity = 0.1 ∧
      (Camera.ctorScalars up0 right0 posX posY posZ upX upY upZ yaw pitch).FOV = 90) ∧
    ((Camera.ctorDefault up0 right0 : Camera α).Position = ⟨0, 0, 0⟩ ∧
      (Camera.ctorDefault up0 right0 : Camera α).WorldUp = ⟨0, 1, 0⟩ ∧
      (Camera.ctorDefault up0 right0 : Camera α).Yaw = -90 ∧
      (Camera.ctorDefault up0 right0 : Camera α).Pitch = 0) ∧
    ({ Camera.ctorScalars up1 right1 posX posY posZ upX upY upZ yaw pitch with
        Up := up0, Right := right0 } =
      Camera.ctor up0 right0 ⟨posX, posY, posZ⟩ ⟨upX, upY, upZ⟩ yaw pitch) := by
  refine ⟨⟨rfl, rfl, rfl, rfl, rfl, rfl, rfl, rfl⟩, ⟨rfl, rfl, rfl, rfl, rfl, rfl, rfl, rfl⟩,
    ⟨rfl, rfl, rfl, rfl⟩, rfl⟩

/-! ### What each public method writes -/

/-- `ProcessKeyboard(FORWARD, t)` as one record update. -/
theorem processKeyboard_forward {α : Type} [LinearOrderedField α] (c : Camera α) (t : α) :
    c.ProcessKeyboard Camera_Movement.FORWARD t =
      { c with Position := c.Position.add (c.Front.scale (c.MovementSpeed * t)) } := by
  simp [Camera.ProcessKeyboard]

/-- `ProcessKeyboard(BACKWARD, t)` as one record update. -/
theorem processKeyboard_backward {α : Type} [LinearOrderedField α] (c : Camera α) (t : α) :
    c.ProcessKeyboard Camera_Movement.BACKWARD t =
      { c with Position := c.Position.sub (c.Front.scale (c.MovementSpeed * t)) } := by
  simp [Camera.ProcessKeyboard]

/-- `ProcessKeyboard(LEFT, t)` as one record update. -/
theorem processKeyboard_left {α : Type} [LinearOrderedField α] (c : Camera α) (t : α) :
    c.ProcessKeyboard Camera_Movement.LEFT t =
      { c with Position := c.Position.sub (c.Right.scale (c.MovementSpeed * t)) } := by
  simp [Camera.ProcessKeyboard]

/-- `ProcessKeyboard(RIGHT, t)` as one record update. -/
theorem processKeyboard_right {α : Type} [LinearOrderedField α] (c : Camera α) (t : α) :
    c.ProcessKeyboard Camera_Movement.RIGHT t =
      { c with Position := c.Position.add (c.Right.scale (c.MovementSpeed * t)) } := by
  simp [Camera.ProcessKeyboard]

/-- `ProcessKeyboard` writes none of `Front`, `Right`, `Up`, `WorldUp`. -/
theorem frame_of_processKeyboard {α : Type} [LinearOrderedField α] (c : Camera α)
    (direction : Camera_Movement) (deltaTime : α) :
    (c.ProcessKeyboard direction deltaTime).Front = c.Front ∧
    (c.ProcessKeyboard direction deltaTime).Right = c.Right ∧
    (c.ProcessKeyboard direction deltaTime).Up = c.Up ∧
    (c.ProcessKeyboard direction deltaTime).WorldUp = c.WorldUp := by
  cases direction
  · rw [processKeyboard_forward]; exact ⟨rfl, rfl, rfl, rfl⟩
  · rw [processKeyboard_backward]; exact ⟨rfl, rfl, rfl, rfl⟩
  · rw [processKeyboard_left]; exact ⟨rfl, rfl, rfl, rfl⟩
  · rw [processKeyboard_right]; exact ⟨rfl, rfl, rfl, rfl⟩

/-- `ProcessMovement` does not write `WorldUp`. -/
theorem worldUp_of_processMovement {α : Type} [LinearOrderedField α] (c : Camera α)
    (xoffset yoffset : α) (constrainPitch : Bool) :
    (c.ProcessMovement xoffset yoffset constrainPitch).WorldUp = c.WorldUp := by
  cases constrainPitch <;> simp [Camera.ProcessMovement, apply_ite Camera.WorldUp]

/-- `ProcessMouseScroll` writes none of `Front`, `Right`, `Up`, `WorldUp`. -/
theorem frame_of_processMouseScroll {α : Type} [LinearOrderedField α] (c : Camera α)
    (yoffset : α) :
    (c.ProcessMouseScroll yoffset).Front = c.Front ∧
    (c.ProcessMouseScroll yoffset).Right = c.Right ∧
    (c.ProcessMouseScroll yoffset).Up = c.Up ∧
    (c.ProcessMouseScroll yoffset).WorldUp = c.WorldUp := by
  simp [Camera.ProcessMouseScroll, apply_ite Camera.Front, apply_ite Camera.Right,
    apply_ite Camera.Up, apply_ite Camera.WorldUp]

/-- No call of a public method writes `Front`, `Right`, `Up` or `WorldUp`. -/
theorem frame_of_call {α : Type} [LinearOrderedField α] (c : Camera α) (k : Call α) :
    (c.call k).Front = c.Front ∧ (c.call k).Right = c.Right ∧ (c.call k).Up = c.Up ∧
    (c.call k).WorldUp = c.WorldUp := by
  cases k with
  | keyboard direction deltaTime => exact frame_of_processKeyboard c direction deltaTime
  | movement xoffset yoffset constrainPitch =>
    exact ⟨(basis_of_processMovement c xoffset yoffset constrainPitch).1,
      (basis_of_processMovement c xoffset yoffset constrainPitch).2.1,
      (basis_of_processMovement c xoffset yoffset constrainPitch).2.2,
      worldUp_of_processMovement c xoffset yoffset constrainPitch⟩
  | scroll yoffset => exact frame_of_processMouseScroll c yoffset

/-- No sequence of calls of public methods writes `Front`, `Right`, `Up` or
`WorldUp`. -/
theorem frame_of_calls {α : Type} [LinearOrderedField α] (l : List (Call α)) :
    ∀ c : Camera α, (c.calls l).Front = c.Front ∧ (c.calls l).Right = c.Right ∧
      (c.calls l).Up = c.Up ∧ (c.calls l).WorldUp = c.WorldUp := by
  induction l with
  | nil => intro c; exact ⟨rfl, rfl, rfl, rfl⟩
  | cons k t ih =>
    intro c
    obtain ⟨h1, h2, h3, h4⟩ := ih (c.call k)
    obtain ⟨g1, g2, g3, g4⟩ := frame_of_call c k
    exact ⟨h1.trans g1, h2.trans g2, h3.trans g3, h4.trans g4⟩

/-- C14, at the failing input. A camera constructed with `yaw = 0`, `pitch = 0`
and `up = (0, 1, 0)`, then moved by `ProcessKeyboard(FORWARD, 1)`, still has
`Yaw = 0`, `Pitch = 0` and `Front = (0, 0, -1)`, while the basis derived from
these angles has `front = (1, 0, 0)`; `Right` and `Up` hold whatever they held
when the constructor returned. -/
theorem C14_reachable_state_with_stale_basis (up0 right0 : Vec3 ℝ) :
    ((Camera.ctor up0 right0 ⟨0, 0, 0⟩ ⟨0, 1, 0⟩ 0 0).calls
        [Call.keyboard Camera_Movement.FORWARD 1]).Yaw = 0 ∧
    ((Camera.ctor up0 right0 ⟨0, 0, 0⟩ ⟨0, 1, 0⟩ 0 0).calls
        [Call.keyboard Camera_Movement.FORWARD 1]).Pitch = 0 ∧
    ((Camera.ctor up0 right0 ⟨0, 0, 0⟩ ⟨0, 1, 0⟩ 0 0).calls
        [Call.keyboard Camera_Movement.FORWARD 1]).WorldUp = ⟨0, 1, 0⟩ ∧
    ((Camera.ctor up0 right0 ⟨0, 0, 0⟩ ⟨0, 1, 0⟩ 0 0).calls
        [Call.keyboard Camera_Movement.FORWARD 1]).Front = ⟨0, 0, -1⟩ ∧
    ((Camera.ctor up0 right0 ⟨0, 0, 0⟩ ⟨0, 1, 0⟩ 0 0).calls
        [Call.keyboard Camera_Movement.FORWARD 1]).Right = right0 ∧
    ((Camera.ctor up0 right0 ⟨0, 0, 0⟩ ⟨0, 1, 0⟩ 0 0).calls
        [Call.keyboard Camera_Movement.FORWARD 1]).Up = up0 ∧
    (recomputeContract 0 0 ⟨0, 1, 0⟩).front = ⟨1, 0, 0⟩ ∧
    ((Camera.ctor up0 right0 ⟨0, 0, 0⟩ ⟨0, 1, 0⟩ 0 0).calls
        [Call.keyboard Camera_Movement.FORWARD 1]).Front ≠
      (recomputeContract 0 0 ⟨0, 1, 0⟩).front := by
  have hc : (recomputeContract 0 0 ⟨0, 1, 0⟩).front = ⟨1, 0, 0⟩ := by
    simp [recomputeContract, radians, normalize, inversesqrt, dot, Vec3.scale]
  have hs : (Camera.ctor up0 right0 ⟨0, 0, 0⟩ ⟨0, 1, 0⟩ 0 0).calls
      [Call.keyboard Camera_Movement.FORWARD 1] =
      (Camera.ctor up0 right0 ⟨0, 0, 0⟩ ⟨0, 1, 0⟩ 0 0).ProcessKeyboard
        Camera_Movement.FORWARD 1 := rfl
  rw [hs, processKeyboard_forward]
  refine ⟨rfl, rfl, rfl, rfl, rfl, rfl, hc, ?_⟩
  rw [hc]
  intro h
  have hx := congrArg Vec3.x h
  have hx0 : (0 : ℝ) = 1 := hx
  norm_num at hx0

/-- C15. `WorldUp` is fixed after construction: `ProcessKeyboard`,
`ProcessMovement`, `ProcessMouseScroll`, `GetViewMAtrix` and
`updateCameraVectors` each leave `WorldUp` as it was, for every input, and
after any sequence of public calls on a camera fresh from either constructor
`WorldUp` is the `up` given at construction. -/
theorem C15_worldUp_fixed {α : Type} [LinearOrderedField α] (c : Camera α) (r : Camera ℝ)
    (direction : Camera_Movement) (deltaTime xoffset yoffset scroll : α)
    (constrainPitch : Bool) (up0 right0 position up : Vec3 α)
    (posX posY posZ upX upY upZ yaw pitch : α) (l : List (Call α)) :
    (c.ProcessKeyboard direction deltaTime).WorldUp = c.WorldUp ∧
    (c.ProcessMovement xoffset yoffset constrainPitch).WorldUp = c.WorldUp ∧
    (c.ProcessMouseScroll scroll).WorldUp = c.WorldUp ∧
    r.GetViewMAtrix.2.WorldUp = r.WorldUp ∧
    r.updateCameraVectors.WorldUp = r.WorldUp ∧
    ((Camera.ctor up0 right0 position up yaw pitch).calls l).WorldUp = up ∧
    ((Camera.ctorScalars up0 right0 posX posY posZ upX upY upZ yaw pitch).calls l).WorldUp =
      ⟨upX, upY, upZ⟩ := by
  refine ⟨(frame_of_processKeyboard c direction deltaTime).2.2.2,
    worldUp_of_processMovement c xoffset yoffset constrainPitch,
    (frame_of_processMouseScroll c scroll).2.2.2, rfl, rfl, ?_, ?_⟩
  · exact (frame_of_calls l _).2.2.2
  · exact (frame_of_calls l _).2.2.2

/-- C16. `ProcessKeyboard` changes `Position` only: `Front`, `Up`, `Right`,
`WorldUp`, `Yaw`, `Pitch`, `MovementSpeed`, `MouseSensitivity` and `FOV` are the
same after the call as before it. -/
theorem C16_processKeyboard_frame {α : Type} [LinearOrderedField α] (c : Camera α)
    (direction : Camera_Movement) (deltaTime : α) :
    (c.ProcessKeyboard direction deltaTime).Front = c.Front ∧
    (c.ProcessKeyboard direction deltaTime).Up = c.Up ∧
    (c.ProcessKeyboard direction deltaTime).Right = c.Right ∧
    (c.ProcessKeyboard direction deltaTime).WorldUp = c.WorldUp ∧
    (c.ProcessKeyboard direction deltaTime).Yaw = c.Yaw ∧
    (c.ProcessKeyboard direction deltaTime).Pitch = c.Pitch ∧
    (c.ProcessKeyboard direction deltaTime).MovementSpeed = c.MovementSpeed ∧
    (c.ProcessKeyboard direction deltaTime).MouseSensitivity = c.MouseSensitivity ∧
    (c.ProcessKeyboard direction deltaTime).FOV = c.FOV := by
  cases direction
  · rw [processKeyboard_forward]; exact ⟨rfl, rfl, rfl, rfl, rfl, rfl, rfl, rfl, rfl⟩
  · rw [processKeyboard_backward]; exact ⟨rfl, rfl, rfl, rfl, rfl, rfl, rfl, rfl, rfl⟩
  · rw [processKeyboard_left]; exact ⟨rfl, rfl, rfl, rfl, rfl, rfl, rfl, rfl, rfl⟩
  · rw [processKeyboard_right]; exact ⟨rfl, rfl, rfl, rfl, rfl, rfl, rfl, rfl, rfl⟩

/-- C17. The viewing direction never changes through the public interface: in
every state reached from either constructor by any sequence of
`ProcessKeyboard`, `ProcessMovement` and `ProcessMouseScroll` calls,
`Front = (0, 0, -1)`, and `Right` and `Up` still hold what they held when the
constructor returned. -/
theorem C17_front_constant_in_reachable_states {α : Type} [LinearOrderedField α]
    (up0 right0 position up : Vec3 α) (posX posY posZ upX upY upZ yaw pitch : α)
    (l : List (Call α)) :
    (((Camera.ctor up0 right0 position up yaw pitch).calls l).Front = ⟨0, 0, -1⟩ ∧
      ((Camera.ctor up0 right0 position up yaw pitch).calls l).Right = right0 ∧
      ((Camera.ctor up0 right0 position up yaw pitch).calls l).Up = up0) ∧
    (((Camera.ctorScalars up0 right0 posX posY posZ upX upY upZ yaw pitch).calls l).Front =
        ⟨0, 0, -1⟩ ∧
      ((Camera.ctorScalars up0 right0 posX posY posZ upX upY upZ yaw pitch).calls l).Right =
        right0 ∧
      ((Camera.ctorScalars up0 right0 posX posY posZ upX upY upZ yaw pitch).calls l).Up = up0) := by
  obtain ⟨h1, h2, h3, -⟩ := frame_of_calls l (Camera.ctor up0 right0 position up yaw pitch)
  obtain ⟨g1, g2, g3, -⟩ :=
    frame_of_calls l (Camera.ctorScalars up0 right0 posX posY posZ upX upY upZ yaw pitch)
  exact ⟨⟨h1, h2, h3⟩, ⟨g1, g2, g3⟩⟩

/-- Adding and then subtracting the same vector returns the start. -/
theorem add_sub_cancel_vec {α : Type} [LinearOrderedField α] (p v : Vec3 α) :
    (p.add v).sub v = p := by
  ext <;> simp [Vec3.add, Vec3.sub]

/-- Subtracting and then adding the same vector returns the start. -/
theorem sub_add_cancel_vec {α : Type} [LinearOrderedField α] (p v : Vec3 α) :
    (p.sub v).add v = p := by
  ext <;> simp [Vec3.add, Vec3.sub]

/-- C18. Opposite movements cancel: `ProcessKeyboard(FORWARD, dt)` followed by
`ProcessKeyboard(BACKWARD, dt)` gives back the camera it started from, and so
its `Position`; the same for BACKWARD then FORWARD, LEFT then RIGHT, and RIGHT
then LEFT. -/
theorem C18_opposite_movements_cancel {α : Type} [LinearOrderedField α] (c : Camera α)
    (dt : α) :
    ((c.ProcessKeyboard Camera_Movement.FORWARD dt).ProcessKeyboard
        Camera_Movement.BACKWARD dt = c ∧
      (c.ProcessKeyboard Camera_Movement.BACKWARD dt).ProcessKeyboard
        Camera_Movement.FORWARD dt = c ∧
      (c.ProcessKeyboard Camera_Movement.LEFT dt).ProcessKeyboard
        Camera_Movement.RIGHT dt = c ∧
      (c.ProcessKeyboard Camera_Movement.RIGHT dt).ProcessKeyboard
        Camera_Movement.LEFT dt = c) ∧
    (((c.ProcessKeyboard Camera_Movement.FORWARD dt).ProcessKeyboard
        Camera_Movement.BACKWARD dt).Position = c.Position ∧
      ((c.ProcessKeyboard Camera_Movement.BACKWARD dt).ProcessKeyboard
        Camera_Movement.FORWARD dt).Position = c.Position ∧
      ((c.ProcessKeyboard Camera_Movement.LEFT dt).ProcessKeyboard
        Camera_Movement.RIGHT dt).Position = c.Position ∧
      ((c.ProcessKeyboard Camera_Movement.RIGHT dt).ProcessKeyboard
        Camera_Movement.LEFT dt).Position = c.Position) := by
  have h1 : (c.ProcessKeyboard Camera_Movement.FORWARD dt).ProcessKeyboard
      Camera_Movement.BACKWARD dt = c := by
    rw [processKeyboard_forward, processKeyboard_backward]
    simp only [add_sub_cancel_vec]
  have h2 : (c.ProcessKeyboard Camera_Movement.BACKWARD dt).ProcessKeyboard
      Camera_Movement.FORWARD dt = c := by
    rw [processKeyboard_backward, processKeyboard_forward]
    simp only [sub_add_cancel_vec]
  have h3 : (c.ProcessKeyboard Camera_Movement.LEFT dt).ProcessKeyboard
      Camera_Movement.RIGHT dt = c := by
    rw [processKeyboard_left, processKeyboard_right]
    simp only [sub_add_cancel_vec]
  have h4 : (c.ProcessKeyboard Camera_Movement.RIGHT dt).ProcessKeyboard
      Camera_Movement.LEFT dt = c := by
    rw [processKeyboard_right, processKeyboard_left]
    simp only [add_sub_cancel_vec]
  refine ⟨⟨h1, h2, h3, h4⟩, ?_, ?_, ?_, ?_⟩
  · rw [h1]
  · rw [h2]
  · rw [h3]
  · rw [h4]

/-- C19. Keyboard translation is additive in elapsed time: for every direction,
`ProcessKeyboard(d, t1)` followed by `ProcessKeyboard(d, t2)` gives the same
camera as `ProcessKeyboard(d, t1 + t2)`, and `ProcessKeyboard(d, 0)` leaves the
camera as it was. -/
theorem C19_processKeyboard_additive {α : Type} [LinearOrderedField α] (c : Camera α)
    (d : Camera_Movement) (t1 t2 : α) :
    (c.ProcessKeyboard d t1).ProcessKeyboard d t2 = c.ProcessKeyboard d (t1 + t2) ∧
    c.ProcessKeyboard d 0 = c := by
  cases d
  · simp only [processKeyboard_forward]
    constructor <;> ext <;> simp [Vec3.add, Vec3.scale] <;> ring
  · simp only [processKeyboard_backward]
    constructor <;> ext <;> simp [Vec3.sub, Vec3.scale] <;> ring
  · simp only [processKeyboard_left]
    constructor <;> ext <;> simp [Vec3.sub, Vec3.scale] <;> ring
  · simp only [processKeyboard_right]
    constructor <;> ext <;> simp [Vec3.add, Vec3.scale] <;> ring

end OpenGLPlayground
